import Mathlib

/-!
Verification of the yearn-exporter v2 vault registry core.

Shallow embedding of `src/yearn/vaults_v2.py`:

* Python dicts are modelled as association lists built with `setKey`
  (overwrite-in-place, append-at-end, exactly CPython dict semantics);
  `lookup` finds the (unique) entry for a key.
* External collaborators (brownie `Contract`, `symbol()` calls, the
  multicall batch, `uniswap.token_price`) are parameters (`Config`,
  `DescribeEnv`).
* Fallible Python code (raising exceptions) returns `Except`:
  `RegError.unknownEvent` models `raise UnknownEvent(evt.name)`,
  `RegError.missingRelease` models the Python `KeyError` raised by
  `self.api_versions[evt['api_version']]` when the release is absent,
  `PyExc` models the exception raised by `fetch_multicall`
  (`valueError` for `ValueError`, `otherError` for any other type).
* Python float arithmetic in `describe` is modelled over `ℚ`.
-/

/-- Python dict lookup `d[k]` / `d.get(k)`: first (hence, for dicts built
with `setKey`, only) entry for key `k`. -/
def lookup {α : Type} (m : List (String × α)) (k : String) : Option α :=
  match m with
  | [] => none
  | p :: rest => if p.1 = k then some p.2 else lookup rest k

/-- Python dict assignment `d[k] = v`: overwrite the entry in place if the
key is present, otherwise append the new entry at the end. -/
def setKey {α : Type} (m : List (String × α)) (k : String) (v : α) : List (String × α) :=
  match m with
  | [] => [(k, v)]
  | p :: rest => if p.1 = k then (k, v) :: rest else p :: setKey rest k v

/-- The keys of a dict, in insertion order. -/
def keys {α : Type} (m : List (String × α)) : List String :=
  m.map Prod.fst

/-- One entry of a contract ABI, as inspected in `VaultV2.__post_init__`
(`x["type"]`, `x["stateMutability"]`, `x["inputs"]`, `x["outputs"][0]["type"]`). -/
structure AbiEntry where
  name : String
  type : String
  stateMutability : String
  inputs : List String
  outputs : List String
  deriving DecidableEq

/-- A brownie contract handle: a name label, the on-chain address and the ABI. -/
structure ContractHandle where
  name : String
  address : String
  abi : List AbiEntry
  deriving DecidableEq

/-- External collaborators of the registry: `Contract(address)` resolution
and the `symbol()` view of the contract at a given address. -/
structure Config where
  contract : String → ContractHandle
  symbolOf : String → String

/-- A decoded registry log event. Python events are dicts with a `name`
attribute plus per-kind fields; unused fields default to `""`/`0`. -/
structure Event where
  name : String
  block_number : Nat := 0
  governance : String := ""
  api_version : String := ""
  template : String := ""
  vault : String := ""
  tag : String := ""
  deriving DecidableEq

/-- Errors raised by `Registry.process_events`: `raise UnknownEvent(evt.name)`
for an unrecognized kind, and the `KeyError` from
`self.api_versions[evt['api_version']]` (the spec's `MissingRelease`). -/
inductive RegError where
  | unknownEvent (name : String)
  | missingRelease (api_version : String)
  deriving DecidableEq

/-- The mutable state owned by `Registry` (`__init__` lines 94-102).
`endorsed` is initialized empty and never written in this module.
`last_block` is unset in Python until line 102; it starts at 0 here and
`process_events` never reads or writes it. -/
structure RegistryState where
  governance : Option String
  api_versions : List (String × ContractHandle)
  vaults : List (String × ContractHandle)
  names : List (String × String)
  endorsed : List (String × String)
  tags : List (String × String)
  last_block : Nat
  deriving DecidableEq

/-- The empty state built by `Registry.__init__` before processing events. -/
def initialState : RegistryState :=
  { governance := none, api_versions := [], vaults := [], names := [], endorsed := [],
    tags := [], last_block := 0 }

/-- One iteration of the `for evt in events` loop body of
`Registry.process_events`: dispatch on `evt.name` and fold the event into
the state, or raise. -/
def applyEvent (cfg : Config) (s : RegistryState) (evt : Event) : Except RegError RegistryState :=
  if evt.name = "NewGovernance" then
    .ok { s with governance := some evt.governance }
  else if evt.name = "NewRelease" then
    .ok { s with api_versions := setKey s.api_versions evt.api_version (cfg.contract evt.template) }
  else if (["NewVault", "NewExperimentalVault"] : List String).contains evt.name then
    if (lookup s.vaults evt.vault).isSome then
      .ok s
    else
      match lookup s.api_versions evt.api_version with
      | none => .error (.missingRelease evt.api_version)
      | some release =>
        let vault : ContractHandle :=
          { name := "Vault v" ++ evt.api_version, address := evt.vault, abi := release.abi }
        .ok { s with
              vaults := setKey s.vaults evt.vault vault,
              names := setKey s.names evt.vault (cfg.symbolOf evt.vault ++ " " ++ evt.api_version) }
  else if evt.name = "VaultTagged" then
    .ok { s with tags := setKey s.tags evt.vault evt.tag }
  else
    .error (.unknownEvent evt.name)

/-- `Registry.process_events`: apply the events in order, mutating the state
in place; an exception halts the loop at the failing event, leaving the
mutations of the already-applied prefix in place. Returns the state reached
together with the raised error, if any. -/
def processEvents (cfg : Config) (s : RegistryState) : List Event → RegistryState × Option RegError
  | [] => (s, none)
  | e :: es =>
    match applyEvent cfg s e with
    | .ok s' => processEvents cfg s' es
    | .error err => (s, some err)

/-- Errors escaping `Registry.__init__`: an exception from `process_events`,
or the `IndexError` from `self.events[-1]` when the event list is empty. -/
inductive InitError where
  | appError (e : RegError)
  | indexError
  deriving DecidableEq

/-- `Registry.__init__` lines 94-102: build the empty state, process all
historical events, then set `last_block` to the last event's block number. -/
def registryInit (cfg : Config) (events : List Event) : Except InitError RegistryState :=
  match processEvents cfg initialState events with
  | (_, some err) => .error (.appError err)
  | (s, none) =>
    match events.getLast? with
    | none => .error .indexError
    | some last => .ok { s with last_block := last.block_number }

/-- `get_logs(str(self.registry), from_block, to_block)`: the registry logs
whose block number lies in the inclusive range `[fromB, toB]`, in order. -/
def getLogs (allLogs : List Event) (fromB toB : Nat) : List Event :=
  allLogs.filter (fun e => fromB ≤ e.block_number ∧ e.block_number ≤ toB)

/-- One iteration of the `Registry.watch_events` loop for a newly confirmed
block height `H`: fetch the logs in `(last_block, H]`, process them, and on
success set `last_block := H`. An exception from `process_events` propagates
(the assignment on line 137 is never reached). -/
def watchStep (cfg : Config) (allLogs : List Event) (s : RegistryState) (H : Nat) :
    RegistryState × Option RegError :=
  let logs := getLogs allLogs (s.last_block + 1) H
  match processEvents cfg s logs with
  | (s', none) => ({ s' with last_block := H }, none)
  | (s', some err) => (s', some err)

/-- The fixed list of view names rescaled by `describe`
(`VAULT_VIEWS_SCALED`, lines 13-25). -/
def VAULT_VIEWS_SCALED : List String :=
  ["totalAssets",
   "maxAvailableShares",
   "pricePerShare",
   "debtOutstanding",
   "creditAvailable",
   "expectedReturn",
   "totalSupply",
   "availableDepositLimit",
   "depositLimit",
   "totalDebt",
   "debtLimit"]

/-- A value of the snapshot mapping returned by `describe`: a number, or a
nested mapping (the `strategies` section and each strategy's own output). -/
inductive Val where
  | num (q : ℚ)
  | map (entries : List (String × Val))

/-- The snapshot mapping returned by `describe`. -/
abbrev Info := List (String × Val)

/-- A strategy collaborator: its `name` and the mapping its own
`describe()` returns (external to this module). -/
structure Strategy where
  name : String
  describeResult : Val

/-- The `VaultV2` dataclass. `abi` is `self.vault.abi`; `decimals` and
`token` are the results of the external calls `self.vault.decimals()` and
`self.vault.token()` made inside `describe`. -/
structure VaultV2 where
  name : String
  api_version : String
  abi : List AbiEntry
  decimals : Nat
  token : String
  strategies : List Strategy

/-- `VaultV2.__post_init__`: the multicall-safe views — functions with view
mutability, no inputs, and first output of type `uint256`. (Python indexes
`x["outputs"][0]`, so a matching entry always has a first output.) -/
def VaultV2.views (v : VaultV2) : List String :=
  (v.abi.filter (fun x =>
    x.type = "function" ∧ x.stateMutability = "view" ∧ x.inputs = [] ∧
      x.outputs.head? = some "uint256")).map AbiEntry.name

/-- `dict(zip(views, results))`: fold the pairs into a dict, so a duplicate
view name keeps the last value, as in Python. -/
def dictOfZip (ks : List String) (vs : List ℚ) : List (String × ℚ) :=
  (ks.zip vs).foldl (fun m p => setKey m p.1 p.2) []

/-- Exceptions the `fetch_multicall` batch can raise: a `ValueError` (the
only type `describe` catches), or an exception of any other type. -/
inductive PyExc where
  | valueError
  | otherError
  deriving DecidableEq

/-- External collaborators of `describe`: the outcome of the
`fetch_multicall` batch over `self._views` (in order), and
`uniswap.token_price` keyed by the vault's token address. -/
structure DescribeEnv where
  fetchMulticall : Except PyExc (List ℚ)
  tokenPrice : String → ℚ

/-- Lines 61-62 of `describe`: `if "totalAssets" in info:` add
`info["tvl"] = info["token price"] * info["totalAssets"]`. A present
`totalAssets` entry always holds a number (it comes from the view
results), so the numeric arm is the one Python takes. -/
def addTvl (price : ℚ) (info : Info) : Info :=
  match lookup info "totalAssets" with
  | some (Val.num ta) => setKey info "tvl" (Val.num (price * ta))
  | _ => info

/-- `VaultV2.describe` (lines 46-64): batch-fetch the views, zip them into
a dict, divide the `VAULT_VIEWS_SCALED` entries by `10 ** decimals`, and
start an empty `strategies` dict; on a `ValueError` from the batch call,
fall back to `{"strategies": {}}`; any other exception propagates. Then
nest each strategy's describe output under `strategies`, add the token
price, and, when `totalAssets` is present, add
`tvl = token price * totalAssets` (`addTvl`). -/
def describe (v : VaultV2) (env : DescribeEnv) : Except PyExc Info :=
  let scale : ℚ := 10 ^ v.decimals
  let tryResult : Except PyExc Info :=
    match env.fetchMulticall with
    | .ok results =>
      let info := dictOfZip v.views results
      let info := info.map (fun p =>
        (p.1, if p.1 ∈ VAULT_VIEWS_SCALED then p.2 / scale else p.2))
      .ok (setKey (info.map (fun p => (p.1, Val.num p.2))) "strategies" (Val.map []))
    | .error PyExc.valueError => .ok [("strategies", Val.map [])]
    | .error e => .error e
  match tryResult with
  | .error e => .error e
  | .ok info =>
    let stratDict := v.strategies.foldl (fun m strat => setKey m strat.name strat.describeResult) []
    let info := setKey info "strategies" (Val.map stratDict)
    let info := setKey info "token price" (Val.num (env.tokenPrice v.token))
    .ok (addTvl (env.tokenPrice v.token) info)

/-! ## Concrete fixtures used by witnesses and counterexamples -/

/-- A small vault ABI: two zero-argument `uint256` views. -/
def abiEx : List AbiEntry :=
  [{ name := "totalAssets", type := "function", stateMutability := "view",
     inputs := [], outputs := ["uint256"] },
   { name := "foo", type := "function", stateMutability := "view",
     inputs := [], outputs := ["uint256"] }]

/-- A concrete collaborator configuration: every address resolves to a
handle carrying `abiEx`, and every vault's `symbol()` is `"yvDAI"`. -/
def cfgEx : Config :=
  { contract := fun a => { name := "Template", address := a, abi := abiEx },
    symbolOf := fun _ => "yvDAI" }

/-- A concrete vault with 6 decimals, the two `abiEx` views and one strategy. -/
def vEx : VaultV2 :=
  { name := "yvDAI 0.3.0", api_version := "0.3.0", abi := abiEx, decimals := 6,
    token := "0xTOK", strategies := [{ name := "StrategyA", describeResult := Val.map [] }] }

/-- Multicall succeeds: raw view values `totalAssets = 5000000`, `foo = 7`. -/
def envOk : DescribeEnv := { fetchMulticall := .ok [5000000, 7], tokenPrice := fun _ => 2 }

/-- Multicall raises a `ValueError`. -/
def envVE : DescribeEnv := { fetchMulticall := .error .valueError, tokenPrice := fun _ => 2 }

/-- Multicall raises an exception that is not a `ValueError`. -/
def envOther : DescribeEnv := { fetchMulticall := .error .otherError, tokenPrice := fun _ => 2 }

/-- A registry state after a `NewRelease` for api version `0.3.0`. -/
def sRel : RegistryState :=
  { initialState with api_versions := [("0.3.0", cfgEx.contract "0xTMPL")] }

/-- A registry state whose cursor sits at block 100. -/
def sW : RegistryState := { initialState with last_block := 100 }

/-- A `NewVault` creation event for address `0xAAA` at api version `0.3.0`. -/
def eVault : Event := { name := "NewVault", api_version := "0.3.0", vault := "0xAAA" }

/-- An event of a kind outside the known set, at block 120. -/
def eBogus : Event := { name := "Bogus", block_number := 120 }

/-! ## Association-list lemmas -/

/-- After `d[k] = v`, looking up `k` yields `v`. -/
theorem lookup_setKey_self {α : Type} (m : List (String × α)) (k : String) (v : α) :
    lookup (setKey m k v) k = some v := by
  induction m with
  | nil => simp [setKey, lookup]
  | cons p rest ih =>
    by_cases h : p.1 = k
    · simp [setKey, h, lookup]
    · simp [setKey, h, lookup, ih]

/-- After `d[k] = v`, looking up any other key is unchanged. -/
theorem lookup_setKey_ne {α : Type} (m : List (String × α)) (k k' : String) (v : α)
    (h : k' ≠ k) : lookup (setKey m k v) k' = lookup m k' := by
  induction m with
  | nil =>
    have hne : ¬(k = k') := fun hk => h hk.symm
    simp [setKey, lookup, hne]
  | cons p rest ih =>
    by_cases hp : p.1 = k
    · subst hp
      have hne : ¬(p.1 = k') := fun hk => h hk.symm
      simp [setKey, lookup, hne]
    · simp [setKey, hp, lookup, ih]

/-- Looking up in the scaled copy of a dict scales the looked-up value
(scaling of line 51-53, as a map over the entries). -/
theorem lookup_map_scale (m : List (String × ℚ)) (scale : ℚ) (k : String) :
    lookup (m.map (fun p => (p.1, if p.1 ∈ VAULT_VIEWS_SCALED then p.2 / scale else p.2))) k
      = (lookup m k).map (fun q => if k ∈ VAULT_VIEWS_SCALED then q / scale else q) := by
  induction m with
  | nil => simp [lookup]
  | cons p rest ih =>
    by_cases h : p.1 = k
    · subst h; simp [lookup, ih]
    · simp [lookup, h, ih]

/-- Looking up in the `Val.num`-wrapped copy of a dict wraps the value. -/
theorem lookup_map_num (m : List (String × ℚ)) (k : String) :
    lookup (m.map (fun p => (p.1, Val.num p.2))) k = (lookup m k).map Val.num := by
  induction m with
  | nil => simp [lookup]
  | cons p rest ih =>
    by_cases h : p.1 = k
    · subst h; simp [lookup, ih]
    · simp [lookup, h, ih]

/-! ## Structural lemmas about event processing -/

/-- A single event application never touches the `last_block` cursor:
`process_events` only writes `governance`, `api_versions`, `vaults`,
`names` and `tags`. -/
theorem applyEvent_last_block (cfg : Config) (s : RegistryState) (evt : Event)
    (s' : RegistryState) (h : applyEvent cfg s evt = .ok s') :
    s'.last_block = s.last_block := by
  unfold applyEvent at h
  repeat' split at h
  all_goals first
  | (cases h; rfl)
  | simp_all

/-- `process_events` never changes the `last_block` cursor, whether it
completes or halts on an error. -/
theorem processEvents_last_block (cfg : Config) (es : List Event) (s : RegistryState) :
    (processEvents cfg s es).1.last_block = s.last_block := by
  induction es generalizing s with
  | nil => rfl
  | cons e es ih =>
    cases h : applyEvent cfg s e with
    | ok s' =>
      simp only [processEvents, h]
      rw [ih s', applyEvent_last_block cfg s e s' h]
    | error err => simp [processEvents, h]

/-- Processing a concatenation whose first part succeeds continues from the
state the first part reached. -/
theorem processEvents_append (cfg : Config) (es₁ es₂ : List Event) (s : RegistryState)
    (h : (processEvents cfg s es₁).2 = none) :
    processEvents cfg s (es₁ ++ es₂) = processEvents cfg (processEvents cfg s es₁).1 es₂ := by
  induction es₁ generalizing s with
  | nil => simp [processEvents]
  | cons e es ih =>
    cases ha : applyEvent cfg s e with
    | ok s' =>
      simp only [processEvents, ha] at h ⊢
      exact ih s' h
    | error err => simp [processEvents, ha] at h

/-! ## C1: display name recorded at vault creation -/

/-- The display name recorded for `addr` after applying one event, when the
application succeeds. -/
def nameAfter (cfg : Config) (s : RegistryState) (evt : Event) (addr : String) : Option String :=
  match applyEvent cfg s evt with
  | .ok s' => lookup s'.names addr
  | .error _ => none

/-- Claim C1, counterexample: applying a `NewVault` event for api version
`0.3.0` (symbol `yvDAI`) to a state holding that release records the name
`"yvDAI 0.3.0"` — `"<symbol> <apiVersion>"`, not `"<symbol> v<apiVersion>"`
as the claim states. -/
theorem c1_counterexample :
    nameAfter cfgEx sRel eVault "0xAAA" = some "yvDAI 0.3.0" ∧
      "yvDAI 0.3.0" ≠ "yvDAI v0.3.0" :=
  ⟨rfl, by decide⟩

/-- Claim C1 (amended): for every VaultCreated event applied to a state
whose releases contain the event's api version and whose vaults do not yet
contain the vault address, the recorded display name is
`"<symbol> <apiVersion>"` — the symbol, a space, and the api version, with
no `v` prefix. -/
theorem c1_display_name (cfg : Config) (s : RegistryState) (evt : Event)
    (hk : evt.name = "NewVault" ∨ evt.name = "NewExperimentalVault")
    (hrel : (lookup s.api_versions evt.api_version).isSome)
    (hnew : lookup s.vaults evt.vault = none) :
    ∃ s', applyEvent cfg s evt = .ok s' ∧
      lookup s'.names evt.vault = some (cfg.symbolOf evt.vault ++ " " ++ evt.api_version) := by
  obtain ⟨release, hrel'⟩ := Option.isSome_iff_exists.mp hrel
  rcases hk with h | h <;>
    simp [applyEvent, h, hnew, hrel', lookup_setKey_self]

/-- Witness for C1 at a concrete input. -/
theorem c1_display_name_witness :
    ((eVault.name = "NewVault" ∨ eVault.name = "NewExperimentalVault") ∧
      (lookup sRel.api_versions eVault.api_version).isSome ∧
      lookup sRel.vaults eVault.vault = none) ∧
    ∃ s', applyEvent cfgEx sRel eVault = .ok s' ∧
      lookup s'.names eVault.vault = some (cfgEx.symbolOf eVault.vault ++ " " ++ eVault.api_version) :=
  ⟨⟨by decide, by decide, by decide⟩,
    c1_display_name cfgEx sRel eVault (by decide) (by decide) (by decide)⟩

/-! ## C2: degraded snapshot on multicall failure -/

/-- The snapshot `describe vEx envVE` actually returns. -/
def infoVE : Info :=
  [("strategies", Val.map [("StrategyA", Val.map [])]), ("token price", Val.num 2)]

/-- Claim C2, counterexample: when the batch call fails with a `ValueError`,
the returned snapshot also carries the `"token price"` key, so it does not
contain only the `strategies` section. -/
theorem c2_counterexample :
    describe vEx envVE = Except.ok infoVE ∧ keys infoVE ≠ ["strategies"] :=
  ⟨rfl, by decide⟩

/-- Claim C2 (amended): for every vault, if the batched multicall fails with
a `ValueError`, `describe` does not raise and returns a snapshot whose
top-level keys are exactly `strategies` and `token price` (no fetched
views, no `tvl`). -/
theorem c2_degraded_keys (v : VaultV2) (env : DescribeEnv)
    (h : env.fetchMulticall = .error .valueError) :
    ∃ info, describe v env = .ok info ∧ keys info = ["strategies", "token price"] := by
  simp [describe, h, addTvl, setKey, lookup, keys]

/-- Witness for C2 at a concrete input. -/
theorem c2_degraded_keys_witness :
    envVE.fetchMulticall = Except.error PyExc.valueError ∧
    ∃ info, describe vEx envVE = Except.ok info ∧ keys info = ["strategies", "token price"] :=
  ⟨rfl, c2_degraded_keys vEx envVE rfl⟩

/-! ## C3: the watch loop fetches (L, H] and advances the cursor to H -/

/-- Claim C3: for a confirmed height `H` above the cursor `L`, the watch
iteration fetches exactly the logs with block number in `(L, H]`, and when
their application succeeds it sets `last_block` to `H` — for any number of
events in the range, including zero. -/
theorem c3_watch_range_cursor (cfg : Config) (allLogs : List Event) (s : RegistryState) (H : Nat)
    (hH : s.last_block < H) :
    (∀ e, e ∈ getLogs allLogs (s.last_block + 1) H ↔
        (e ∈ allLogs ∧ s.last_block < e.block_number ∧ e.block_number ≤ H)) ∧
    ((processEvents cfg s (getLogs allLogs (s.last_block + 1) H)).2 = none →
      watchStep cfg allLogs s H =
        ({ (processEvents cfg s (getLogs allLogs (s.last_block + 1) H)).1 with last_block := H },
          none)) := by
  constructor
  · intro e
    simp [getLogs, List.mem_filter, Nat.add_one_le_iff]
  · intro hp
    rcases hE : processEvents cfg s (getLogs allLogs (s.last_block + 1) H) with ⟨s₁, o⟩
    rw [hE] at hp
    simp only at hp
    subst hp
    simp [watchStep, hE]

/-- Witness for C3 at a concrete input with zero events in the range. -/
theorem c3_watch_range_cursor_witness :
    sW.last_block < 150 ∧
    (processEvents cfgEx sW (getLogs [] (sW.last_block + 1) 150)).2 = none ∧
    (watchStep cfgEx [] sW 150).1.last_block = 150 := by
  refine ⟨by decide, rfl, ?_⟩
  have h := (c3_watch_range_cursor cfgEx [] sW 150 (by decide)).2 rfl
  rw [h]

/-! ## C4: release must precede vault creation -/

/-- Claim C4: applying `[NewRelease(v1), NewVault(v1, addrA)]` in that order
always succeeds, while a creation event for a new vault address whose api
version has no entry in the releases map fails with `missingRelease`, and
the error propagates out of `processEvents` rather than being recovered. -/
theorem c4_ordering (cfg : Config) (s : RegistryState) (v1 t addrA : String) :
    (processEvents cfg s
      [{ name := "NewRelease", api_version := v1, template := t },
       { name := "NewVault", api_version := v1, vault := addrA }]).2 = none ∧
    (∀ evt : Event, (evt.name = "NewVault" ∨ evt.name = "NewExperimentalVault") →
      lookup s.vaults evt.vault = none →
      lookup s.api_versions evt.api_version = none →
      applyEvent cfg s evt = .error (.missingRelease evt.api_version) ∧
      ∀ es, processEvents cfg s (evt :: es) = (s, some (.missingRelease evt.api_version))) := by
  constructor
  · have h1 : applyEvent cfg s { name := "NewRelease", api_version := v1, template := t } =
        .ok { s with api_versions := setKey s.api_versions v1 (cfg.contract t) } := by
      simp [applyEvent]
    simp only [processEvents, h1]
    by_cases hv : (lookup (setKey s.api_versions v1 (cfg.contract t)) v1).isSome
    all_goals
      by_cases hvault :
        (lookup s.vaults ({ name := "NewVault", api_version := v1, vault := addrA } : Event).vault).isSome <;>
      simp [applyEvent, hvault, lookup_setKey_self, processEvents]
  · intro evt hk hnew hmiss
    have happly : applyEvent cfg s evt = .error (.missingRelease evt.api_version) := by
      rcases hk with h | h <;> simp [applyEvent, h, hnew, hmiss]
    exact ⟨happly, fun es => by simp [processEvents, happly]⟩

/-- Witness for C4 at concrete inputs. -/
theorem c4_ordering_witness :
    (processEvents cfgEx initialState
      [{ name := "NewRelease", api_version := "0.3.0", template := "0xTMPL" },
       { name := "NewVault", api_version := "0.3.0", vault := "0xAAA" }]).2 = none ∧
    ((eVault.name = "NewVault" ∨ eVault.name = "NewExperimentalVault") ∧
      lookup initialState.vaults eVault.vault = none ∧
      lookup initialState.api_versions eVault.api_version = none) ∧
    applyEvent cfgEx initialState eVault = .error (.missingRelease eVault.api_version) :=
  ⟨(c4_ordering cfgEx initialState "0.3.0" "0xTMPL" "0xAAA").1,
    ⟨by decide, rfl, rfl⟩,
    ((c4_ordering cfgEx initialState "0.3.0" "0xTMPL" "0xAAA").2 eVault (by decide) rfl rfl).1⟩

/-! ## C5: unknown event kinds are fatal and propagate -/

/-- Claim C5: for every decoded event whose kind is outside
`{NewGovernance, NewRelease, NewVault, NewExperimentalVault, VaultTagged}`,
application fails with `unknownEvent`, and the error propagates out of
`processEvents`, out of registry initialization, and out of the watch
iteration, never silently swallowed. -/
theorem c5_unknown_kind (cfg : Config) (s : RegistryState) (evt : Event) (es : List Event)
    (h1 : evt.name ≠ "NewGovernance") (h2 : evt.name ≠ "NewRelease")
    (h3 : evt.name ≠ "NewVault") (h4 : evt.name ≠ "NewExperimentalVault")
    (h5 : evt.name ≠ "VaultTagged") :
    applyEvent cfg s evt = .error (.unknownEvent evt.name) ∧
    processEvents cfg s (evt :: es) = (s, some (.unknownEvent evt.name)) ∧
    registryInit cfg (evt :: es) = .error (.appError (.unknownEvent evt.name)) ∧
    (∀ allLogs H, getLogs allLogs (s.last_block + 1) H = evt :: es →
      watchStep cfg allLogs s H = (s, some (.unknownEvent evt.name))) := by
  have key : ∀ s' : RegistryState, applyEvent cfg s' evt = .error (.unknownEvent evt.name) := by
    intro s'
    simp [applyEvent, h1, h2, h3, h4, h5]
  refine ⟨key s, by simp [processEvents, key s], ?_, ?_⟩
  · simp [registryInit, processEvents, key initialState]
  · intro allLogs H hlogs
    simp [watchStep, hlogs, processEvents, key s]

/-- Witness for C5 at a concrete input. -/
theorem c5_unknown_kind_witness :
    (eBogus.name ≠ "NewGovernance" ∧ eBogus.name ≠ "NewRelease" ∧ eBogus.name ≠ "NewVault" ∧
      eBogus.name ≠ "NewExperimentalVault" ∧ eBogus.name ≠ "VaultTagged") ∧
    registryInit cfgEx [eBogus] = .error (.appError (.unknownEvent "Bogus")) ∧
    watchStep cfgEx [eBogus] sW 150 = (sW, some (.unknownEvent "Bogus")) := by
  have h := c5_unknown_kind cfgEx sW eBogus []
    (by decide) (by decide) (by decide) (by decide) (by decide)
  exact ⟨⟨by decide, by decide, by decide, by decide, by decide⟩,
    h.2.2.1, h.2.2.2 [eBogus] 150 (by decide)⟩

/-! ## C6: vault creation is idempotent -/

/-- On a creation event, `applyEvent` reduces to the duplicate check
followed by the release lookup. -/
theorem applyEvent_vaultCreated (cfg : Config) (s : RegistryState) (evt : Event)
    (hk : evt.name = "NewVault" ∨ evt.name = "NewExperimentalVault") :
    applyEvent cfg s evt =
      if (lookup s.vaults evt.vault).isSome then .ok s
      else
        match lookup s.api_versions evt.api_version with
        | none => .error (.missingRelease evt.api_version)
        | some release =>
          .ok { s with
                vaults := setKey s.vaults evt.vault
                  { name := "Vault v" ++ evt.api_version, address := evt.vault,
                    abi := release.abi },
                names := setKey s.names evt.vault
                  (cfg.symbolOf evt.vault ++ " " ++ evt.api_version) } := by
  rcases hk with h | h <;> simp [applyEvent, h]

/-- Claim C6: applying a VaultCreated event that succeeded once a second
time is a no-op — the vault address is now a key of `vaults`, so the second
application returns the state unchanged in every field. -/
theorem c6_idempotent (cfg : Config) (s s' : RegistryState) (evt : Event)
    (hk : evt.name = "NewVault" ∨ evt.name = "NewExperimentalVault")
    (h : applyEvent cfg s evt = .ok s') :
    applyEvent cfg s' evt = .ok s' := by
  rw [applyEvent_vaultCreated cfg s evt hk] at h
  rw [applyEvent_vaultCreated cfg s' evt hk]
  by_cases hv : (lookup s.vaults evt.vault).isSome
  · rw [if_pos hv] at h
    injection h with h
    subst h
    rw [if_pos hv]
  · rw [if_neg hv] at h
    rcases hl : lookup s.api_versions evt.api_version with _ | release <;> rw [hl] at h
    · cases h
    · injection h with h
      subst h
      rw [if_pos (by simp [lookup_setKey_self])]

/-- The state reached by applying `eVault` to `sRel`. -/
def sReg1 : RegistryState :=
  { initialState with
    api_versions := [("0.3.0", cfgEx.contract "0xTMPL")],
    vaults := [("0xAAA", { name := "Vault v0.3.0", address := "0xAAA", abi := abiEx })],
    names := [("0xAAA", "yvDAI 0.3.0")] }

/-- Witness for C6 at a concrete input. -/
theorem c6_idempotent_witness :
    (eVault.name = "NewVault" ∨ eVault.name = "NewExperimentalVault") ∧
    applyEvent cfgEx sRel eVault = .ok sReg1 ∧
    applyEvent cfgEx sReg1 eVault = .ok sReg1 :=
  ⟨by decide, rfl, c6_idempotent cfgEx sRel sReg1 eVault (by decide) rfl⟩

/-! ## C8: failing batches halt and do not advance the cursor -/

/-- Claim C8: when applying a batch raises (unknown kind or missing
release), processing halts at the failing event — the suffix after it is
never applied — and, in the watch iteration, `last_block` is not advanced:
it still holds its value from the last fully-applied range. -/
theorem c8_halt (cfg : Config) (s : RegistryState) (es₁ : List Event) (e : Event)
    (es₂ : List Event) (err : RegError)
    (h1 : (processEvents cfg s es₁).2 = none)
    (h2 : applyEvent cfg (processEvents cfg s es₁).1 e = .error err) :
    processEvents cfg s (es₁ ++ e :: es₂) = ((processEvents cfg s es₁).1, some err) ∧
    (processEvents cfg s (es₁ ++ e :: es₂)).1.last_block = s.last_block ∧
    (∀ allLogs H, getLogs allLogs (s.last_block + 1) H = es₁ ++ e :: es₂ →
      (watchStep cfg allLogs s H).2 = some err ∧
      (watchStep cfg allLogs s H).1.last_block = s.last_block) := by
  have hp : processEvents cfg s (es₁ ++ e :: es₂) = ((processEvents cfg s es₁).1, some err) := by
    rw [processEvents_append cfg es₁ (e :: es₂) s h1]
    simp [processEvents, h2]
  refine ⟨hp, ?_, ?_⟩
  · rw [hp]
    exact processEvents_last_block cfg es₁ s
  · intro allLogs H hlogs
    have hw : watchStep cfg allLogs s H = ((processEvents cfg s es₁).1, some err) := by
      simp [watchStep, hlogs, hp]
    rw [hw]
    exact ⟨rfl, processEvents_last_block cfg es₁ s⟩

/-- Witness for C8 at a concrete input. -/
theorem c8_halt_witness :
    (processEvents cfgEx sW []).2 = none ∧
    applyEvent cfgEx (processEvents cfgEx sW []).1 eBogus = .error (.unknownEvent "Bogus") ∧
    (watchStep cfgEx [eBogus] sW 150).2 = some (.unknownEvent "Bogus") ∧
    (watchStep cfgEx [eBogus] sW 150).1.last_block = sW.last_block := by
  have h := c8_halt cfgEx sW [] eBogus [] (.unknownEvent "Bogus") rfl rfl
  exact ⟨rfl, rfl,
    (h.2.2 [eBogus] 150 (by decide)).1, (h.2.2 [eBogus] 150 (by decide)).2⟩

/-! ## C7: scaling of fetched views -/

/-- Adding `tvl` leaves every other key's entry unchanged. -/
theorem lookup_addTvl_ne (price : ℚ) (info : Info) (k : String) (hk : k ≠ "tvl") :
    lookup (addTvl price info) k = lookup info k := by
  unfold addTvl
  split <;> simp [lookup_setKey_ne _ _ _ _ hk]

/-- Claim C7: for every successful batch fetch, a fetched view in
`VAULT_VIEWS_SCALED` is reported divided by `10 ^ decimals`, and a fetched
view outside that list is reported unscaled (for view names distinct from
the snapshot's bookkeeping keys). -/
theorem c7_scaling (v : VaultV2) (env : DescribeEnv) (results : List ℚ)
    (h : env.fetchMulticall = .ok results) (name : String) (q : ℚ)
    (hname : lookup (dictOfZip v.views results) name = some q)
    (h1 : name ≠ "strategies") (h2 : name ≠ "token price") (h3 : name ≠ "tvl") :
    ∃ info, describe v env = .ok info ∧
      lookup info name =
        some (Val.num (if name ∈ VAULT_VIEWS_SCALED then q / 10 ^ v.decimals else q)) := by
  simp only [describe, h]
  refine ⟨_, rfl, ?_⟩
  rw [lookup_addTvl_ne _ _ _ h3, lookup_setKey_ne _ _ _ _ h2, lookup_setKey_ne _ _ _ _ h1,
    lookup_setKey_ne _ _ _ _ h1, lookup_map_num, lookup_map_scale, hname]
  simp

/-- Witness for C7 at a concrete input: `decimals = 6`, raw
`totalAssets = 5000000`, reported `totalAssets = 5`; the non-listed view
`foo` stays at its raw value `7`. -/
theorem c7_scaling_witness :
    envOk.fetchMulticall = Except.ok [5000000, 7] ∧
    lookup (dictOfZip vEx.views [5000000, 7]) "totalAssets" = some 5000000 ∧
    lookup (dictOfZip vEx.views [5000000, 7]) "foo" = some 7 ∧
    (∃ info, describe vEx envOk = Except.ok info ∧
      lookup info "totalAssets" = some (Val.num 5)) ∧
    (∃ info, describe vEx envOk = Except.ok info ∧
      lookup info "foo" = some (Val.num 7)) := by
  refine ⟨rfl, rfl, rfl, ?_, ?_⟩
  · obtain ⟨info, hd, hl⟩ := c7_scaling vEx envOk [5000000, 7] rfl "totalAssets" 5000000
      rfl (by decide) (by decide) (by decide)
    refine ⟨info, hd, ?_⟩
    rw [hl]
    have hmem : "totalAssets" ∈ VAULT_VIEWS_SCALED := by decide
    rw [if_pos hmem]
    norm_num [vEx]
  · obtain ⟨info, hd, hl⟩ := c7_scaling vEx envOk [5000000, 7] rfl "foo" 7
      rfl (by decide) (by decide) (by decide)
    refine ⟨info, hd, ?_⟩
    rw [hl]
    have hmem : ¬("foo" ∈ VAULT_VIEWS_SCALED) := by decide
    rw [if_neg hmem]

/-! ## C9: degraded describe keeps the strategies section -/

/-- Claim C9, counterexample: when the batch fetch raises an exception that
is not a `ValueError`, `describe` does not return a mapping at all — the
exception propagates — so the claim fails for errors other than
`ValueError`. -/
theorem c9_counterexample : describe vEx envOther = Except.error PyExc.otherError := rfl

/-- Folding strategies into a dict does not touch keys that are not
strategy names. -/
theorem lookup_stratFoldl_not_mem (l : List Strategy) (m : List (String × Val)) (k : String)
    (hk : k ∉ l.map Strategy.name) :
    lookup (l.foldl (fun acc st => setKey acc st.name st.describeResult) m) k = lookup m k := by
  induction l generalizing m with
  | nil => rfl
  | cons st l ih =>
    simp only [List.map_cons, List.mem_cons] at hk
    push_neg at hk
    simp only [List.foldl_cons]
    rw [ih _ hk.2, lookup_setKey_ne _ _ _ _ hk.1]

/-- With distinct strategy names, each strategy's entry survives the fold. -/
theorem lookup_stratFoldl_mem (l : List Strategy) (m : List (String × Val))
    (hnd : (l.map Strategy.name).Nodup) (st : Strategy) (hst : st ∈ l) :
    lookup (l.foldl (fun acc s0 => setKey acc s0.name s0.describeResult) m) st.name =
      some st.describeResult := by
  induction l generalizing m with
  | nil => cases hst
  | cons s0 l ih =>
    simp only [List.map_cons, List.nodup_cons] at hnd
    rcases List.mem_cons.mp hst with hEq | hMem
    · subst hEq
      simp only [List.foldl_cons]
      rw [lookup_stratFoldl_not_mem l _ st.name hnd.1, lookup_setKey_self]
    · simp only [List.foldl_cons]
      exact ih _ hnd.2 hMem

/-- Claim C9 (amended): for every vault, if the batch fetch raises a
`ValueError`, `describe` still returns a mapping with a `strategies` key
under which each strategy's describe output is nested by its (distinct)
name, and the mapping omits `tvl` and `totalAssets`. -/
theorem c9_degraded (v : VaultV2) (env : DescribeEnv)
    (h : env.fetchMulticall = .error .valueError)
    (hnd : (v.strategies.map Strategy.name).Nodup) :
    ∃ info sd, describe v env = .ok info ∧
      lookup info "strategies" = some (Val.map sd) ∧
      (∀ st ∈ v.strategies, lookup sd st.name = some st.describeResult) ∧
      lookup info "tvl" = none ∧ lookup info "totalAssets" = none := by
  have hD : describe v env = .ok [("strategies",
      Val.map (v.strategies.foldl (fun acc st => setKey acc st.name st.describeResult) [])),
      ("token price", Val.num (env.tokenPrice v.token))] := by
    simp [describe, h, setKey, addTvl, lookup]
  refine ⟨_, v.strategies.foldl (fun acc st => setKey acc st.name st.describeResult) [],
    hD, ?_, ?_, ?_, ?_⟩
  · simp [lookup]
  · intro st hst
    exact lookup_stratFoldl_mem v.strategies [] hnd st hst
  · simp [lookup]
  · simp [lookup]

/-- Witness for C9 at a concrete input. -/
theorem c9_degraded_witness :
    envVE.fetchMulticall = Except.error PyExc.valueError ∧
    (vEx.strategies.map Strategy.name).Nodup ∧
    ∃ info sd, describe vEx envVE = Except.ok info ∧
      lookup info "strategies" = some (Val.map sd) ∧
      (∀ st ∈ vEx.strategies, lookup sd st.name = some st.describeResult) ∧
      lookup info "tvl" = none ∧ lookup info "totalAssets" = none :=
  ⟨rfl, by decide, c9_degraded vEx envVE rfl (by decide)⟩

/-! ## C10: only ValueError is caught -/

/-- Claim C10: the graceful degradation catches exactly `ValueError`: on a
`ValueError` from the batch fetch, `describe` returns a snapshot, while an
exception of any other type propagates to the caller unchanged. -/
theorem c10_only_valueerror (v : VaultV2) (env : DescribeEnv) (e : PyExc)
    (h : env.fetchMulticall = .error e) :
    (e = PyExc.valueError → ∃ info, describe v env = .ok info) ∧
    (e ≠ PyExc.valueError → describe v env = .error e) := by
  constructor
  · rintro rfl
    have hD : describe v env = .ok [("strategies",
        Val.map (v.strategies.foldl (fun acc st => setKey acc st.name st.describeResult) [])),
        ("token price", Val.num (env.tokenPrice v.token))] := by
      simp [describe, h, setKey, addTvl, lookup]
    exact ⟨_, hD⟩
  · intro hne
    cases e with
    | valueError => exact absurd rfl hne
    | otherError => simp [describe, h]

/-- Witness for C10 at a concrete input. -/
theorem c10_only_valueerror_witness :
    envOther.fetchMulticall = Except.error PyExc.otherError ∧
    PyExc.otherError ≠ PyExc.valueError ∧
    describe vEx envOther = Except.error PyExc.otherError :=
  ⟨rfl, by decide, (c10_only_valueerror vEx envOther PyExc.otherError rfl).2 (by decide)⟩
